import Mathlib

/-!
Verification development for the CUA annotation tool (`app.py`).

The Python source is shallowly embedded below.  Conventions used throughout:

* JSON numbers appearing in timing arithmetic are modelled as exact
  rationals (`ℚ`); the Python floats `0.8`, `0.3`, `0.1` become `4/5`,
  `3/10`, `1/10`.
* A Python `dict.get(k)` that can miss (or hold JSON `null`) is modelled as
  an `Option` field; `dict.get(k, d)` becomes `Option.getD`.
* Python truthiness of a numeric field (`if pre_move.get('start_time')`)
  is `pyTruthy`: present and nonzero.  Truthiness of the `pre_move` dict
  itself is redundant in the source (an absent or empty dict has falsy
  `get` results), so `pre_move` is modelled by its two timestamp fields.
* Python strings are modelled as `String` / `List Char`; the substring
  operator `in` is `containsSub`, and `str.lower()` is `Char.toLower`
  mapped over the characters (ASCII case folding).
* The regular expressions in the source (`re.search`) all consist of
  literal runs, `\d+`, `\s*` and a trailing `(.+)`; they are interpreted
  by the token matcher `searchToks`, which scans left to right and applies
  the greedy rules (equivalent to the backtracking semantics for these
  patterns, since each `\d+` / `\s*` is followed by a character it cannot
  consume).
* Persistent JSON-object stores are association lists with
  `dictGet` / `dictSet` (update in place, insert at the end), matching
  Python dict insertion-order semantics.
* File-system state a request handler can observe is gathered in `TaskFS`
  (per task) and passed explicitly; cv2 frame grabbing and file writing
  are external side effects outside the data model.
-/

/-- Prefix test on character lists: `leadsWith pat s` holds when `pat`
begins `s`.  (Named without the usual library spelling on purpose.) -/
def leadsWith : List Char → List Char → Bool
  | [], _ => true
  | _ :: _, [] => false
  | p :: ps, c :: cs => decide (p = c) && leadsWith ps cs

/-- Python's substring operator `pat in s` on character lists. -/
def containsSub : List Char → List Char → Bool
  | [], pat => decide (pat = [])
  | c :: s, pat => leadsWith pat (c :: s) || containsSub s pat

/-- Characters matched by `\s` in the source's regular expressions. -/
def isPySpace (c : Char) : Bool :=
  c = ' ' || c = '\t' || c = '\n' || c = '\r' || c = '\x0b' || c = '\x0c'

/-- Tokens of the small regular-expression fragment used by `app.py`:
literal runs, `(\d+)`, `\s*`, and a final `(.+)` (one or more
non-newline characters). -/
inductive Tok where
  | lit : List Char → Tok
  | dig : Tok
  | ws : Tok
  | rest : Tok

/-- Match a token sequence at the head of the input, returning the list of
captured groups (`dig` and `rest` capture). -/
def matchToks : List Tok → List Char → Option (List (List Char))
  | [], _ => some []
  | Tok.lit l :: ts, s =>
      if leadsWith l s then matchToks ts (s.drop l.length) else none
  | Tok.dig :: ts, s =>
      let d := s.takeWhile Char.isDigit
      if d = [] then none
      else (matchToks ts (s.drop d.length)).map (fun gs => d :: gs)
  | Tok.ws :: ts, s => matchToks ts (s.dropWhile isPySpace)
  | Tok.rest :: ts, s =>
      let d := s.takeWhile (fun c => decide (c ≠ '\n'))
      if d = [] then none
      else (matchToks ts (s.drop d.length)).map (fun gs => d :: gs)

/-- `re.search`: try the pattern at every start position, left to right. -/
def searchToks (ts : List Tok) : List Char → Option (List (List Char))
  | [] => matchToks ts []
  | c :: s =>
      match matchToks ts (c :: s) with
      | some gs => some gs
      | none => searchToks ts s

/-- The pattern `dragTo\((\d+),\s*(\d+)\)` used at both coordinate
substitution sites. -/
def dragToPat : List Tok :=
  [Tok.lit "dragTo(".data, Tok.dig, Tok.lit [','], Tok.ws, Tok.dig,
   Tok.lit [')']]

/-- First `dragTo(d1, d2)` occurrence in a code string, as its two digit
groups. -/
def reDragTo (s : List Char) : Option (List Char × List Char) :=
  match searchToks dragToPat s with
  | some [d1, d2] => some (d1, d2)
  | _ => none

/-- The pattern `Drag from \((\d+),\s*(\d+)\) to \((\d+),\s*(\d+)\)` from
`build_pyautogui_code`. -/
def dragFromPat : List Tok :=
  [Tok.lit "Drag from (".data, Tok.dig, Tok.lit [','], Tok.ws, Tok.dig,
   Tok.lit ") to (".data, Tok.dig, Tok.lit [','], Tok.ws, Tok.dig,
   Tok.lit [')']]

/-- Match of the drag-description pattern, as four digit groups. -/
def reDragFrom (s : List Char) :
    Option (List Char × List Char × List Char × List Char) :=
  match searchToks dragFromPat s with
  | some [a, b, c, d] => some (a, b, c, d)
  | _ => none

/-- The literal marker before `×N` in scroll-down descriptions (the bytes
exactly as they appear in the source file). -/
def downMarker : String :=
  "‚¨áÔ∏è√ó"

/-- The literal marker before `×N` in scroll-up descriptions. -/
def upMarker : String :=
  "‚¨ÜÔ∏è√ó"

/-- The keyboard marker preceding `Type:` / `Press:` in descriptions. -/
def kbMarker : String :=
  "‚å®Ô∏è"

/-- Run a one-group pattern and return its single captured group. -/
def reOneGroup (p : List Tok) (s : List Char) : Option (List Char) :=
  match searchToks p s with
  | some [g] => some g
  | _ => none

/-- Python `int` on a captured digit string. -/
def digsToNat (d : List Char) : ℕ :=
  d.foldl (fun n c => 10 * n + (c.toNat - 48)) 0

/-- `build_pyautogui_code(action, event, description)` from `app.py`
(lines 176–213).  The event's defaulted coordinate is passed as `x`, `y`. -/
def build_pyautogui_code (action : String) (x y : ℤ) (description : String) :
    String :=
  let descLower : List Char := description.data.map Char.toLower
  if action = "click" then
    if containsSub descLower "double".data then
      s!"pyautogui.doubleClick({x}, {y})"
    else if containsSub descLower "right".data then
      s!"pyautogui.rightClick({x}, {y})"
    else if containsSub descLower "triple".data then
      s!"pyautogui.click({x}, {y}, clicks=3)"
    else s!"pyautogui.click({x}, {y})"
  else if action = "drag" then
    match reDragFrom description.data with
    | some (a, b, c, d) =>
        "pyautogui.moveTo(" ++ String.mk a ++ ", " ++ String.mk b ++
          "); pyautogui.dragTo(" ++ String.mk c ++ ", " ++ String.mk d ++ ")"
    | none => s!"pyautogui.drag({x}, {y})"
  else if action = "scroll" then
    let down := reOneGroup [Tok.lit downMarker.data, Tok.dig] description.data
    let up := reOneGroup [Tok.lit upMarker.data, Tok.dig] description.data
    let total : ℤ :=
      (match up with
       | some g => (digsToNat g : ℤ)
       | none => 0) -
      (match down with
       | some g => (digsToNat g : ℤ)
       | none => 0)
    s!"pyautogui.scroll({total})"
  else if action = "type" then
    match reOneGroup [Tok.lit (kbMarker ++ " Type: ").data, Tok.rest]
        description.data with
    | some t =>
        let text := if t.length > 30 then t.take 30 ++ ['.', '.', '.'] else t
        "pyautogui.write('" ++ String.mk text ++ "')"
    | none => "pyautogui.write('...')"
  else if action = "press" then
    match reOneGroup [Tok.lit (kbMarker ++ " Press: ").data, Tok.rest]
        description.data with
    | some t => "pyautogui.hotkey(" ++ String.mk t ++ ")"
    | none => "pyautogui.press('...')"
  else s!"# {action}"

/-- The coordinate-substitution chain that rewrites an already synthesized
code string at a new coordinate.  It appears verbatim at the two sites the
spec names: `api_task` (app.py lines 1456–1469) and `api_export`
(lines 1638–1654).  Note it consults only the code string, never the
description. -/
def adjust_code (code : String) (x y : ℤ) : String :=
  let cs := code.data
  if containsSub cs "doubleClick".data then
    s!"pyautogui.doubleClick({x}, {y})"
  else if containsSub cs "rightClick".data then
    s!"pyautogui.rightClick({x}, {y})"
  else if containsSub cs "clicks=3".data then
    s!"pyautogui.click({x}, {y}, clicks=3)"
  else if containsSub (cs.map Char.toLower) "click".data &&
      containsSub cs "pyautogui.click".data then
    s!"pyautogui.click({x}, {y})"
  else if containsSub cs "moveTo".data && containsSub cs "dragTo".data then
    match reDragTo cs with
    | some (d1, d2) =>
        "pyautogui.moveTo(" ++ toString x ++ ", " ++ toString y ++
          "); pyautogui.dragTo(" ++ String.mk d1 ++ ", " ++ String.mk d2 ++ ")"
    | none => code
  else code

/-- One line of the complete event log (`reduced_events_complete.jsonl`).
`pre_move_start` / `pre_move_end` model `ce.get('pre_move', {})` through its
two timestamp lookups (an absent or empty `pre_move` dict yields `none` for
both, exactly the falsy cases of the source's conditions); an `Option`
field is `none` when the key is absent. -/
structure RawEvent where
  action : String
  x : Option ℤ
  y : Option ℤ
  start_time : Option ℚ
  end_time : Option ℚ
  pre_move_start : Option ℚ
  pre_move_end : Option ℚ
  description : Option String
  justification : Option String
deriving DecidableEq

/-- One line of the visible event log; only its `description` key is read. -/
structure VisEvent where
  description : Option String
deriving DecidableEq

/-- Python truthiness of a numeric `dict.get` result: present and nonzero. -/
def pyTruthy (o : Option ℚ) : Bool :=
  match o with
  | none => false
  | some v => decide (v ≠ 0)

/-- The capture-time heuristic of `load_task_data` (app.py lines 132–144).
Only the second and third rules clamp at zero. -/
def capture_time (e : RawEvent) : ℚ :=
  if pyTruthy e.pre_move_start && pyTruthy e.pre_move_end then
    let pmS := e.pre_move_start.getD 0
    let pmE := e.pre_move_end.getD 0
    pmS + (pmE - pmS) * (4 / 5)
  else if pyTruthy e.pre_move_end then
    max 0 (e.pre_move_end.getD 0 - 3 / 10)
  else
    max 0 (e.start_time.getD 0 - 1 / 10)

/-- `description = ve.get('description', ce.get('description', ''))`
(app.py line 150): the visible event's value wins whenever its key is
present, empty or not. -/
def step_description (ve : Option VisEvent) (ce : RawEvent) : String :=
  match ve with
  | some v =>
      match v.description with
      | some d => d
      | none => ce.description.getD ""
  | none => ce.description.getD ""

/-- A normalized step as assembled in `load_task_data` (lines 156–165). -/
structure Step where
  index : ℕ
  action : String
  description : String
  justification : String
  code : String
  coordinate : ℤ × ℤ
  has_coordinate : Bool
  video_time : ℚ
deriving DecidableEq

/-- The per-index body of the step-building loop (lines 124–165). -/
def build_step (i : ℕ) (ce : RawEvent) (ve : Option VisEvent)
    (video_start_ts : ℚ) : Step :=
  let x := ce.x.getD 0
  let y := ce.y.getD 0
  let description := step_description ve ce
  { index := i
    action := ce.action
    description := description
    justification := ce.justification.getD ""
    code := build_pyautogui_code ce.action x y description
    coordinate := (x, y)
    has_coordinate :=
      (ce.action = "click" || ce.action = "drag") && (x != 0 || y != 0)
    video_time := capture_time ce - video_start_ts }

/-- The slice of on-disk state that `load_task_data` and the export loop
read for one task.  `video_start_ts` is `metadata.get('video_start_timestamp', 0)`
(already defaulted; a missing metadata file gives `0`).  `video_file` is
the first `*.mp4` outside `video_clips`, if any.  `complete_events` is
`none` exactly when `reduced_events_complete.jsonl` is absent; a missing
visible log is the empty list.  (Video resolution probing via cv2 is an
external effect and not part of the data model.) -/
structure TaskFS where
  dir_exists : Bool
  video_start_ts : ℚ
  video_file : Option String
  complete_events : Option (List RawEvent)
  vis_events : List VisEvent

/-- The value `load_task_data` returns for a found task. -/
structure TaskData where
  task_id : String
  video_file : Option String
  video_start_ts : ℚ
  steps : List Step
deriving DecidableEq

/-- `load_task_data(task_id)` (app.py lines 72–174): `None` when the task
directory or the mandatory complete log is missing, otherwise all steps. -/
def load_task_data (task_id : String) (fs : TaskFS) : Option TaskData :=
  if !fs.dir_exists then none
  else
    match fs.complete_events with
    | none => none
    | some ces =>
        some
          { task_id := task_id
            video_file := fs.video_file
            video_start_ts := fs.video_start_ts
            steps :=
              ces.enum.map fun p =>
                build_step p.1 p.2 fs.vis_events[p.1]? fs.video_start_ts }

/-- Lookup in a JSON object modelled as an association list. -/
def dictGet {β : Type} : List (String × β) → String → Option β
  | [], _ => none
  | (k', v) :: rest, k => if k' = k then some v else dictGet rest k

/-- Key assignment in a JSON object: replace in place, else append
(Python dict insertion-order semantics). -/
def dictSet {β : Type} : List (String × β) → String → β → List (String × β)
  | [], k, v => [(k, v)]
  | (k', v') :: rest, k, v =>
      if k' = k then (k, v) :: rest else (k', v') :: dictSet rest k v

/-- One record of `coordinate_adjustments.json`.  Records written by the
handler always carry `original`; the `'original' in ...` test in the source
also tolerates records without it, hence the `Option`. -/
structure AdjRecord where
  task_id : String
  step_index : ℤ
  x : ℤ
  y : ℤ
  original : Option (ℤ × ℤ)
deriving DecidableEq

/-- The overlay key `f"{task_id}_{step_index}"`. -/
def adjKey (task_id : String) (step_index : ℤ) : String :=
  task_id ++ "_" ++ toString step_index

/-- `api_update_coordinate` (app.py lines 1503–1543) acting on the loaded
adjustment store: preserve a stored `original` when present, otherwise
adopt the supplied one, and overwrite the record at the key. -/
def api_update_coordinate (store : List (String × AdjRecord))
    (task_id : String) (step_index : ℤ) (new_x new_y : ℤ)
    (original_x original_y : ℤ) : List (String × AdjRecord) :=
  let key := adjKey task_id step_index
  let original : ℤ × ℤ :=
    match dictGet store key with
    | some r =>
        match r.original with
        | some o => o
        | none => (original_x, original_y)
    | none => (original_x, original_y)
  dictSet store key
    { task_id := task_id
      step_index := step_index
      x := new_x
      y := new_y
      original := some original }

/-- One record of `annotations.json`.  `mark` is three-state:
`some "pass"`, `some "fail"`, or `none` (JSON null / absent = unclear). -/
structure AnnRecord where
  mark : Option String
  pass_reason : String
  scores : List (String × ℤ)
deriving DecidableEq

/-- `api_annotate` (app.py lines 1473–1489) acting on the loaded
annotation store: wholesale replacement of the task's record. -/
def api_annotate (store : List (String × AnnRecord)) (task_id : String)
    (mark : Option String) (pass_reason : String)
    (scores : List (String × ℤ)) : List (String × AnnRecord) :=
  dictSet store task_id
    { mark := mark, pass_reason := pass_reason, scores := scores }

/-- The per-step adjustment application of `api_task`
(app.py lines 1450–1469). -/
def adjust_step (task_id : String) (adjs : List (String × AdjRecord))
    (step : Step) : Step :=
  match dictGet adjs (task_id ++ "_" ++ toString step.index) with
  | none => step
  | some adj =>
      { step with
          coordinate := (adj.x, adj.y)
          code := adjust_code step.code adj.x adj.y }

/-- `api_task` (app.py lines 1438–1471): 404 (here `none`) when
`load_task_data` found nothing, else the steps with the coordinate overlay
applied.  A missing adjustments file is the empty store. -/
def api_task (task_id : String) (fs : TaskFS)
    (adjs : List (String × AdjRecord)) : Option TaskData :=
  (load_task_data task_id fs).map fun td =>
    { td with steps := td.steps.map (adjust_step task_id adjs) }

/-- One row of `task_assignments.csv`. -/
structure TaskInfo where
  task_id : String
  instruction : String
  worker_id : String
  worker_name : String
deriving DecidableEq

/-- One trajectory entry of an export record (app.py lines 1656–1661). -/
structure TrajEntry where
  index : ℕ
  code : String
  screenshot : String
  justification : String
deriving DecidableEq

/-- The four fixed rubric scores, missing dimensions defaulted to 0
(app.py lines 1670–1675). -/
structure Scores4 where
  correctness : ℤ
  difficulty : ℤ
  knowledge_richness : ℤ
  task_value : ℤ
deriving DecidableEq

/-- `scores.get(dim, 0)` on the stored partial score map. -/
def scoreGet (scores : List (String × ℤ)) (dim : String) : ℤ :=
  (dictGet scores dim).getD 0

/-- One per-task dataset record (`cua_data`, app.py lines 1666–1677).
`task_id` keeps its string form here; the source converts digit-only ids
to `int` purely for serialization. -/
structure ExportRecord where
  task_id : String
  instruction : String
  pass_reason : String
  scores : Scores4
  traj : List TrajEntry
deriving DecidableEq

/-- Build the dataset record for one selected task (app.py lines
1624–1677): re-apply the coordinate overlay to each step's code by the
substitution chain and snapshot the annotation.  Frame extraction only
affects whether the screenshot file is written; the trajectory entry is
appended either way. -/
def export_record (task_id : String) (info : Option TaskInfo)
    (ann : AnnRecord) (td : TaskData) (adjs : List (String × AdjRecord)) :
    ExportRecord :=
  { task_id := task_id
    instruction := (info.map TaskInfo.instruction).getD ""
    pass_reason := ann.pass_reason
    scores :=
      { correctness := scoreGet ann.scores "correctness"
        difficulty := scoreGet ann.scores "difficulty"
        knowledge_richness := scoreGet ann.scores "knowledge_richness"
        task_value := scoreGet ann.scores "task_value" }
    traj :=
      td.steps.map fun step =>
        { index := step.index
          code :=
            match dictGet adjs (task_id ++ "_" ++ toString step.index) with
            | some adj => adjust_code step.code adj.x adj.y
            | none => step.code
          screenshot :=
            "task_" ++ task_id ++ "/step_" ++ toString step.index ++ ".png"
          justification := step.justification } }

/-- `passed_tasks` (app.py line 1594): ids whose annotation mark equals
`'pass'`, in store iteration order. -/
def export_selected (annotations : List (String × AnnRecord)) : List String :=
  (annotations.filter fun p => decide (p.2.mark = some "pass")).map Prod.fst

/-- The body of the export loop for one selected id (app.py lines
1599–1618): skip when the task data is missing (`continue`) or no video
file is found (`continue`), else produce the dataset record. -/
def export_try (annotations : List (String × AnnRecord))
    (tasks : List (String × TaskInfo)) (adjs : List (String × AdjRecord))
    (fs : String → TaskFS) (task_id : String) : Option ExportRecord :=
  match load_task_data task_id (fs task_id) with
  | none => none
  | some td =>
      match (fs task_id).video_file with
      | none => none
      | some _ =>
          some
            (export_record task_id (dictGet tasks task_id)
              ((dictGet annotations task_id).getD
                { mark := none, pass_reason := "", scores := [] })
              td adjs)

/-- What `api_export` reports and writes (app.py lines 1684–1706):
`all_data` is both the list of per-task records written and the content of
the combined `all_tasks.json`; `count` and `message` report
`len(passed_tasks)`. -/
structure ExportResult where
  selected : List String
  all_data : List ExportRecord
  count : ℕ
  message : String
deriving DecidableEq

/-- `api_export` (app.py lines 1579–1706), with file and archive writing
treated as external effects on the computed `all_data`. -/
def api_export (annotations : List (String × AnnRecord))
    (tasks : List (String × TaskInfo)) (fs : String → TaskFS)
    (adjs : List (String × AdjRecord)) : ExportResult :=
  let passed := export_selected annotations
  { selected := passed
    all_data := passed.filterMap (export_try annotations tasks adjs fs)
    count := passed.length
    message := "Exported " ++ toString passed.length ++ " passed cases" }

/-- Modelled from the spec: the capture-time priority rules with "set"
read as key-present (regardless of value), the natural reading of the
specified rule order.  Kept separate from `capture_time` (the code, which
tests Python truthiness) so the two readings can be compared. -/
def capture_time_specRead (e : RawEvent) : ℚ :=
  if e.pre_move_start.isSome && e.pre_move_end.isSome then
    let pmS := e.pre_move_start.getD 0
    let pmE := e.pre_move_end.getD 0
    pmS + (pmE - pmS) * (4 / 5)
  else if e.pre_move_end.isSome then
    max 0 (e.pre_move_end.getD 0 - 3 / 10)
  else
    max 0 (e.start_time.getD 0 - 1 / 10)

/-- A sequence of further `api_update_coordinate` calls on one key; each
call supplies `((new_x, new_y), supplied_original_x, supplied_original_y)`. -/
def applyCalls (store : List (String × AdjRecord)) (task_id : String)
    (step_index : ℤ) : List ((ℤ × ℤ) × ℤ × ℤ) → List (String × AdjRecord)
  | [] => store
  | c :: cs =>
      applyCalls
        (api_update_coordinate store task_id step_index c.1.1 c.1.2 c.2.1
          c.2.2)
        task_id step_index cs

/-- Event with a full pre-move window (10, 12) and top-level start time 9:
the spec's worked capture-time example. -/
def evFull : RawEvent :=
  { action := "click", x := some 100, y := some 200, start_time := some 9,
    end_time := some 13, pre_move_start := some 10, pre_move_end := some 12,
    description := some "click", justification := none }

/-- Event whose pre-move has only an end time. -/
def evEndOnly : RawEvent :=
  { action := "click", x := some 100, y := some 200, start_time := some 9,
    end_time := some 13, pre_move_start := none, pre_move_end := some 12,
    description := some "click", justification := none }

/-- Event with no pre-move timing at all. -/
def evPlain : RawEvent :=
  { action := "click", x := some 100, y := some 200, start_time := some 9,
    end_time := some 13, pre_move_start := none, pre_move_end := none,
    description := some "click", justification := none }

/-- Event whose pre-move start time is present but equal to `0`: both
timestamps are "set", yet `0` is falsy in Python. -/
def evZeroStart : RawEvent :=
  { action := "click", x := some 100, y := some 200, start_time := some 9,
    end_time := some 13, pre_move_start := some 0, pre_move_end := some 12,
    description := some "click", justification := none }

/-- Event whose full pre-move window lies at negative timestamps, driving
the (unclamped) first capture rule below zero. -/
def evNegPre : RawEvent :=
  { action := "click", x := some 100, y := some 200, start_time := some 9,
    end_time := some 13, pre_move_start := some (-1),
    pre_move_end := some (-1), description := some "click",
    justification := none }

/-- Task state holding the single event `evNegPre`. -/
def fsNeg : TaskFS :=
  { dir_exists := true, video_start_ts := 0, video_file := none,
    complete_events := some [evNegPre], vis_events := [] }

/-- Complete event whose description is `"foo"`. -/
def ceFoo : RawEvent :=
  { action := "click", x := some 5, y := some 6, start_time := some 1,
    end_time := none, pre_move_start := none, pre_move_end := none,
    description := some "foo", justification := none }

/-- Visible event carrying a description key holding the empty string. -/
def veEmptyDesc : VisEvent := { description := some "" }

/-- Task state pairing `ceFoo` with an empty-string visible description. -/
def fsDesc : TaskFS :=
  { dir_exists := true, video_start_ts := 0, video_file := none,
    complete_events := some [ceFoo], vis_events := [veEmptyDesc] }

/-- A double-click event at (100, 200). -/
def ceDouble : RawEvent :=
  { action := "click", x := some 100, y := some 200, start_time := some 1,
    end_time := none, pre_move_start := none, pre_move_end := none,
    description := some "double click the icon", justification := none }

/-- Task state holding the single double-click event. -/
def fsDouble : TaskFS :=
  { dir_exists := true, video_start_ts := 0, video_file := some "v.mp4",
    complete_events := some [ceDouble], vis_events := [] }

/-- Adjustment store moving task 9, step 0, to (150, 250). -/
def adjsDouble : List (String × AdjRecord) :=
  [("9_0",
    { task_id := "9", step_index := 0, x := 150, y := 250,
      original := some (100, 200) })]

/-- A drag event at (100, 200) whose description does not match the
`Drag from (x1,y1) to (x2,y2)` pattern. -/
def dragEvent : RawEvent :=
  { action := "drag", x := some 100, y := some 200, start_time := some 1,
    end_time := none, pre_move_start := none, pre_move_end := none,
    description := some "move the file icon", justification := none }

/-- A three-verdict annotation store: pass, fail, and unset marks. -/
def annotationsW : List (String × AnnRecord) :=
  [("1", { mark := some "pass", pass_reason := "ok",
           scores := [("correctness", 5)] }),
   ("2", { mark := some "fail", pass_reason := "bad", scores := [] }),
   ("3", { mark := none, pass_reason := "", scores := [] })]

/-- A task registry entry for the pass-marked task. -/
def tasksW : List (String × TaskInfo) :=
  [("1", { task_id := "1", instruction := "do it", worker_id := "w",
           worker_name := "n" })]

/-- Per-task state in which every task resolves to `ceFoo` with a video. -/
def fsW : String → TaskFS := fun _ =>
  { dir_exists := true, video_start_ts := 0, video_file := some "v.mp4",
    complete_events := some [ceFoo], vis_events := [] }

/-- Annotation store with one pass-marked task. -/
def annsC6 : List (String × AnnRecord) :=
  [("7", { mark := some "pass", pass_reason := "", scores := [] })]

/-- Per-task state in which every task directory is missing. -/
def fsMissing : String → TaskFS := fun _ =>
  { dir_exists := false, video_start_ts := 0, video_file := none,
    complete_events := none, vis_events := [] }

theorem leadsWith_mem {pat s : List Char} (h : leadsWith pat s = true) :
    ∀ c ∈ pat, c ∈ s := by
  induction pat generalizing s with
  | nil => simp
  | cons p ps ih =>
    cases s with
    | nil => simp [leadsWith] at h
    | cons a as =>
      simp only [leadsWith, Bool.and_eq_true, decide_eq_true_eq] at h
      obtain ⟨rfl, h2⟩ := h
      intro c hc
      rcases List.mem_cons.mp hc with rfl | hc
      · exact List.mem_cons_self _ _
      · exact List.mem_cons_of_mem _ (ih h2 c hc)

theorem containsSub_mem {s pat : List Char} (h : containsSub s pat = true) :
    ∀ c ∈ pat, c ∈ s := by
  induction s with
  | nil =>
    simp only [containsSub, decide_eq_true_eq] at h
    subst h; simp
  | cons a as ih =>
    simp only [containsSub, Bool.or_eq_true] at h
    rcases h with h | h
    · exact leadsWith_mem h
    · exact fun c hc => List.mem_cons_of_mem _ (ih h c hc)

theorem containsSub_false {s pat : List Char} (c : Char) (hc : c ∈ pat)
    (hs : c ∉ s) : containsSub s pat = false := by
  cases h : containsSub s pat with
  | false => rfl
  | true => exact absurd (containsSub_mem h c hc) hs

theorem dictGet_dictSet_self {β : Type} (d : List (String × β)) (k : String)
    (v : β) : dictGet (dictSet d k v) k = some v := by
  induction d with
  | nil => simp [dictGet, dictSet]
  | cons p rest ih =>
    obtain ⟨k', v'⟩ := p
    by_cases h : k' = k
    · subst h; simp [dictSet, dictGet]
    · simp [dictSet, dictGet, h, ih]

theorem dictGet_dictSet_ne {β : Type} (d : List (String × β))
    (k k' : String) (v : β) (h : k' ≠ k) :
    dictGet (dictSet d k v) k' = dictGet d k' := by
  induction d with
  | nil =>
    show (if k = k' then some v else none) = none
    exact if_neg fun he => h he.symm
  | cons p rest ih =>
    obtain ⟨k'', v''⟩ := p
    by_cases hk : k'' = k
    · subst hk
      rw [show dictSet ((k'', v'') :: rest) k'' v = (k'', v) :: rest from
        if_pos rfl]
      have hne : ¬k'' = k' := fun he => h he.symm
      simp only [dictGet, if_neg hne]
    · simp only [dictSet, if_neg hk, dictGet, ih]

theorem dictGet_eq_some_iff_mem {β : Type} {l : List (String × β)}
    (hnd : (l.map Prod.fst).Nodup) {k : String} {v : β} :
    dictGet l k = some v ↔ (k, v) ∈ l := by
  induction l with
  | nil => simp [dictGet]
  | cons p rest ih =>
    obtain ⟨k', v'⟩ := p
    simp only [List.map_cons, List.nodup_cons] at hnd
    by_cases h : k' = k
    · subst h
      rw [show dictGet ((k', v') :: rest) k' = some v' from if_pos rfl]
      simp only [List.mem_cons, Option.some.injEq]
      constructor
      · rintro rfl
        exact Or.inl rfl
      · rintro (he | hm)
        · exact ((Prod.ext_iff.mp he).2).symm
        · exact absurd (List.mem_map.mpr ⟨(k', v), hm, rfl⟩) hnd.1
    · rw [show dictGet ((k', v') :: rest) k = dictGet rest k from if_neg h,
        ih hnd.2]
      simp only [List.mem_cons]
      constructor
      · exact Or.inr
      · rintro (he | hm)
        · exact absurd (congrArg Prod.fst he) fun hx => h hx.symm
        · exact hm

theorem length_filterMap_all_some {α β : Type} {f : α → Option β}
    {l : List α} (h : ∀ a ∈ l, f a ≠ none) :
    (l.filterMap f).length = l.length := by
  induction l with
  | nil => simp
  | cons a rest ih =>
    cases hf : f a with
    | none => exact absurd hf (h a (List.mem_cons_self _ _))
    | some b =>
      simp only [List.filterMap_cons, hf, List.length_cons]
      exact congrArg Nat.succ (ih fun x hx => h x (List.mem_cons_of_mem _ hx))

theorem toLower_digit {c : Char} (h : c.isDigit = true) : c.toLower = c := by
  simp only [Char.isDigit, Bool.and_eq_true, decide_eq_true_eq] at h
  have h2 : c.val.toNat ≤ 57 := UInt32.toNat_le_of_le (by decide) h.2
  unfold Char.toLower
  rw [if_neg]
  rintro ⟨h65, -⟩
  simp only [Char.toNat] at h65
  omega

theorem map_toLower_id {l : List Char} (h : ∀ c ∈ l, c.toLower = c) :
    l.map Char.toLower = l := by
  induction l with
  | nil => rfl
  | cons a rest ih =>
    simp only [List.map_cons, h a (List.mem_cons_self _ _)]
    exact congrArg _ (ih fun c hc => h c (List.mem_cons_of_mem _ hc))

theorem update_coordinate_existing {store : List (String × AdjRecord)}
    {tid : String} {idx : ℤ} {r : AdjRecord} {o : ℤ × ℤ}
    (nx ny ox oy : ℤ) (h1 : dictGet store (adjKey tid idx) = some r)
    (h2 : r.original = some o) :
    dictGet (api_update_coordinate store tid idx nx ny ox oy)
        (adjKey tid idx) =
      some { task_id := tid, step_index := idx, x := nx, y := ny,
             original := some o } := by
  simp only [api_update_coordinate, h1, h2]
  exact dictGet_dictSet_self _ _ _

theorem applyCalls_keeps_original (tid : String) (idx : ℤ) (o : ℤ × ℤ) :
    ∀ (calls : List ((ℤ × ℤ) × ℤ × ℤ)) (store : List (String × AdjRecord))
      (r : AdjRecord), dictGet store (adjKey tid idx) = some r →
      r.original = some o →
      ∃ r', dictGet (applyCalls store tid idx calls) (adjKey tid idx) =
          some r' ∧ r'.original = some o := by
  intro calls
  induction calls with
  | nil => exact fun store r h1 h2 => ⟨r, h1, h2⟩
  | cons c cs ih =>
    intro store r h1 h2
    exact ih _ _ (update_coordinate_existing c.1.1 c.1.2 c.2.1 c.2.2 h1 h2)
      rfl

/-- C1: the Coordinate Adjustment Store's `original` is write-once.  If a
record with an `original` field exists at the key, a further `set` keeps
that original verbatim, ignores the newly supplied one, and overwrites
`current` to the new coordinates; on a fresh key the supplied original is
stored; and after a first `set` on a fresh key followed by any further
calls on the same key (whatever originals they supply), the stored
original is still the one supplied first. -/
theorem C1_original_write_once (store : List (String × AdjRecord))
    (tid : String) (idx nx ny ox oy : ℤ) :
    (∀ r o, dictGet store (adjKey tid idx) = some r → r.original = some o →
      dictGet (api_update_coordinate store tid idx nx ny ox oy)
          (adjKey tid idx) =
        some { task_id := tid, step_index := idx, x := nx, y := ny,
               original := some o }) ∧
    (dictGet store (adjKey tid idx) = none →
      dictGet (api_update_coordinate store tid idx nx ny ox oy)
          (adjKey tid idx) =
        some { task_id := tid, step_index := idx, x := nx, y := ny,
               original := some (ox, oy) }) ∧
    (∀ calls : List ((ℤ × ℤ) × ℤ × ℤ),
      dictGet store (adjKey tid idx) = none →
      ∃ r, dictGet
          (applyCalls (api_update_coordinate store tid idx nx ny ox oy) tid
            idx calls) (adjKey tid idx) = some r ∧
        r.original = some (ox, oy)) := by
  refine ⟨fun r o h1 h2 => update_coordinate_existing nx ny ox oy h1 h2,
    fun h => ?_, fun calls h => ?_⟩
  · simp only [api_update_coordinate, h]
    exact dictGet_dictSet_self _ _ _
  · refine applyCalls_keeps_original tid idx (ox, oy) calls _
      { task_id := tid, step_index := idx, x := nx, y := ny,
        original := some (ox, oy) } ?_ rfl
    simp only [api_update_coordinate, h]
    exact dictGet_dictSet_self _ _ _

theorem C1_witness :
    dictGet (api_update_coordinate [] "5" 0 10 20 1 2) (adjKey "5" 0) =
        some { task_id := "5", step_index := 0, x := 10, y := 20,
               original := some (1, 2) } ∧
    ∃ r, dictGet
        (applyCalls (api_update_coordinate [] "5" 0 10 20 1 2) "5" 0
          [((30, 40), 7, 8), ((50, 60), 9, 9)]) (adjKey "5" 0) = some r ∧
      r.original = some (1, 2) :=
  ⟨(C1_original_write_once [] "5" 0 10 20 1 2).2.1 rfl,
   (C1_original_write_once [] "5" 0 10 20 1 2).2.2
     [((30, 40), 7, 8), ((50, 60), 9, 9)] rfl⟩

/-- C2 (counterexample): the claim reads the first capture rule as firing
whenever both `pre_move` timestamps are set.  The code tests Python
truthiness, so a present-but-zero `start_time` falls through to the
end-time rule: on `evZeroStart` the code yields `11.7` where the claimed
rule order (`capture_time_specRead`) yields `9.6`. -/
theorem C2_counterexample :
    capture_time evZeroStart = 117 / 10 ∧
    capture_time_specRead evZeroStart = 48 / 5 ∧
    capture_time evZeroStart ≠ capture_time_specRead evZeroStart := by
  have h1 : capture_time evZeroStart = 117 / 10 := by
    norm_num [capture_time, evZeroStart, pyTruthy]
  have h2 : capture_time_specRead evZeroStart = 48 / 5 := by
    norm_num [capture_time_specRead, evZeroStart]
  exact ⟨h1, h2, by rw [h1, h2]; norm_num⟩

/-- C2 (amended): the capture-time priority holds with "set" read as
present and nonzero (Python truthiness): the full-window rule wins when
both pre-move timestamps are truthy, the end-time rule when only the end
timestamp is truthy, the fallback otherwise; and the spec's worked example
(`pre_move = (10, 12)`, `start_time = 9`) yields `11.6`. -/
theorem C2_capture_priority (e : RawEvent) :
    (pyTruthy e.pre_move_start = true → pyTruthy e.pre_move_end = true →
      capture_time e =
        e.pre_move_start.getD 0 +
          (e.pre_move_end.getD 0 - e.pre_move_start.getD 0) * (4 / 5)) ∧
    (pyTruthy e.pre_move_start = false → pyTruthy e.pre_move_end = true →
      capture_time e = max 0 (e.pre_move_end.getD 0 - 3 / 10)) ∧
    (pyTruthy e.pre_move_end = false →
      capture_time e = max 0 (e.start_time.getD 0 - 1 / 10)) ∧
    capture_time evFull = 58 / 5 := by
  refine ⟨fun h1 h2 => ?_, fun h1 h2 => ?_, fun h2 => ?_,
    by norm_num [capture_time, evFull, pyTruthy]⟩
  · simp [capture_time, h1, h2]
  · simp [capture_time, h1, h2]
  · simp [capture_time, h2]

theorem C2_witness :
    capture_time evFull =
        evFull.pre_move_start.getD 0 +
          (evFull.pre_move_end.getD 0 - evFull.pre_move_start.getD 0) *
            (4 / 5) ∧
    capture_time evEndOnly = max 0 (evEndOnly.pre_move_end.getD 0 - 3 / 10) ∧
    capture_time evPlain = max 0 (evPlain.start_time.getD 0 - 1 / 10) :=
  ⟨(C2_capture_priority evFull).1 (by decide) (by decide),
   (C2_capture_priority evEndOnly).2.1 (by decide) (by decide),
   (C2_capture_priority evPlain).2.2.1 (by decide)⟩

/-- C3 (counterexample): the full pre-move-window capture rule is not
clamped at zero in the code.  With `pre_move = (-1, -1)` and recording
start offset `0` the produced `video_time` is `-1`, violating the claimed
`video_time ≥ -offset` bound. -/
theorem C3_counterexample :
    ((load_task_data "3" fsNeg).map fun td => td.steps.map Step.video_time) =
        some [(-1 : ℚ)] ∧
    ¬((-1 : ℚ) ≥ -fsNeg.video_start_ts) := by
  have hs : ((load_task_data "3" fsNeg).map fun td =>
      td.steps.map Step.video_time) =
      some [capture_time evNegPre - fsNeg.video_start_ts] := rfl
  have hc : capture_time evNegPre - fsNeg.video_start_ts = -1 := by
    norm_num [capture_time, evNegPre, pyTruthy, fsNeg]
  refine ⟨by rw [hs, hc], ?_⟩
  show ¬((-1 : ℚ) ≥ -(0 : ℚ))
  norm_num

/-- C3 (amended): the zero clamp applies only to the end-time-only and
fallback capture rules; for every event that does not take the full
pre-move-window rule, capture ≥ 0 and hence
`video_time = capture - offset ≥ -offset`. -/
theorem C3_video_time_clamped (e : RawEvent) (vst : ℚ)
    (h : ¬(pyTruthy e.pre_move_start = true ∧
        pyTruthy e.pre_move_end = true)) :
    0 ≤ capture_time e ∧ capture_time e - vst ≥ -vst := by
  have hb : (pyTruthy e.pre_move_start && pyTruthy e.pre_move_end) = false := by
    cases h1 : pyTruthy e.pre_move_start <;>
      cases h2 : pyTruthy e.pre_move_end <;> simp_all
  have h0 : 0 ≤ capture_time e := by
    simp only [capture_time, hb, Bool.false_eq_true, if_false]
    split
    · exact le_max_left 0 _
    · exact le_max_left 0 _
  exact ⟨h0, by linarith⟩

theorem C3_witness :
    0 ≤ capture_time evPlain ∧ capture_time evPlain - 3 ≥ -3 :=
  C3_video_time_clamped evPlain 3 (by decide)

/-- C4 (counterexample): a visible event whose `description` key holds the
empty string wins over the complete event's description: the produced step
description is `""`, not the complete event's `"foo"` as the claim
states. -/
theorem C4_counterexample :
    ((load_task_data "4" fsDesc).map fun td =>
        td.steps.map Step.description) = some [""] ∧
    ("" : String) ≠ "foo" :=
  ⟨rfl, by decide⟩

/-- C4 (amended): the step description is the visible event's description
whenever that event exists and carries a `description` key (empty or not),
and the complete event's description (defaulted to `""`) otherwise. -/
theorem C4_description_choice (ve : VisEvent) (ce : RawEvent) :
    (∀ d, ve.description = some d → step_description (some ve) ce = d) ∧
    (ve.description = none →
      step_description (some ve) ce = ce.description.getD "") ∧
    step_description none ce = ce.description.getD "" := by
  refine ⟨fun d hd => ?_, fun hn => ?_, rfl⟩
  · simp [step_description, hd]
  · simp [step_description, hn]

theorem C4_witness :
    step_description (some veEmptyDesc) ceFoo = "" ∧
    step_description (some { description := none }) ceFoo =
      ceFoo.description.getD "" :=
  ⟨(C4_description_choice veEmptyDesc ceFoo).1 "" rfl,
   (C4_description_choice { description := none } ceFoo).2.1 rfl⟩

theorem export_try_task_id {annotations : List (String × AnnRecord)}
    {tasks : List (String × TaskInfo)} {adjs : List (String × AdjRecord)}
    {fs : String → TaskFS} {tid : String} {rec : ExportRecord}
    (h : export_try annotations tasks adjs fs tid = some rec) :
    rec.task_id = tid := by
  unfold export_try at h
  cases hload : load_task_data tid (fs tid) with
  | none => rw [hload] at h; exact Option.noConfusion h
  | some td =>
    rw [hload] at h
    cases hv : (fs tid).video_file with
    | none => rw [hv] at h; exact Option.noConfusion h
    | some v =>
      rw [hv] at h
      simp only [Option.some.injEq] at h
      rw [← h]
      rfl

/-- C5: export gating.  `passed_tasks` is exactly the set of ids whose
stored annotation mark equals `"pass"`; every record in the exported
dataset (`all_data`, which is both the per-task files and the combined
file) belongs to a pass-marked task; and a task whose mark is `"fail"` or
unset never contributes a record, however complete its steps.  The
annotation store is assumed to have distinct keys (a JSON-object
invariant). -/
theorem C5_export_gating (annotations : List (String × AnnRecord))
    (tasks : List (String × TaskInfo)) (fs : String → TaskFS)
    (adjs : List (String × AdjRecord))
    (hnd : (annotations.map Prod.fst).Nodup) :
    (∀ tid, tid ∈ (api_export annotations tasks fs adjs).selected ↔
      ∃ ann, dictGet annotations tid = some ann ∧ ann.mark = some "pass") ∧
    (∀ rec ∈ (api_export annotations tasks fs adjs).all_data,
      ∃ ann, dictGet annotations rec.task_id = some ann ∧
        ann.mark = some "pass") ∧
    (∀ tid ann, dictGet annotations tid = some ann →
      ann.mark ≠ some "pass" →
      ∀ rec ∈ (api_export annotations tasks fs adjs).all_data,
        rec.task_id ≠ tid) := by
  have hsel : ∀ tid, tid ∈ export_selected annotations ↔
      ∃ ann, dictGet annotations tid = some ann ∧ ann.mark = some "pass" := by
    intro tid
    simp only [export_selected, List.mem_map, List.mem_filter,
      decide_eq_true_eq]
    constructor
    · rintro ⟨⟨k, ann⟩, ⟨hmem, hmark⟩, rfl⟩
      exact ⟨ann, (dictGet_eq_some_iff_mem hnd).mpr hmem, hmark⟩
    · rintro ⟨ann, hget, hmark⟩
      exact ⟨(tid, ann), ⟨(dictGet_eq_some_iff_mem hnd).mp hget, hmark⟩, rfl⟩
  have hdata : (api_export annotations tasks fs adjs).all_data =
      (export_selected annotations).filterMap
        (export_try annotations tasks adjs fs) := rfl
  have hmem : ∀ rec ∈ (api_export annotations tasks fs adjs).all_data,
      ∃ ann, dictGet annotations rec.task_id = some ann ∧
        ann.mark = some "pass" := by
    intro rec hrec
    rw [hdata] at hrec
    obtain ⟨tid, htid, htry⟩ := List.mem_filterMap.mp hrec
    rw [export_try_task_id htry]
    exact (hsel tid).mp htid
  refine ⟨hsel, hmem, fun tid ann hget hne rec hrec heq => ?_⟩
  obtain ⟨ann', hget', hmark'⟩ := hmem rec hrec
  rw [heq, hget] at hget'
  injection hget' with h'
  exact hne (h' ▸ hmark')

theorem C5_witness :
    (∀ tid, tid ∈ (api_export annotationsW tasksW fsW []).selected ↔
      ∃ ann, dictGet annotationsW tid = some ann ∧
        ann.mark = some "pass") ∧
    (∀ rec ∈ (api_export annotationsW tasksW fsW []).all_data,
      ∃ ann, dictGet annotationsW rec.task_id = some ann ∧
        ann.mark = some "pass") ∧
    (∀ tid ann, dictGet annotationsW tid = some ann →
      ann.mark ≠ some "pass" →
      ∀ rec ∈ (api_export annotationsW tasksW fsW []).all_data,
        rec.task_id ≠ tid) :=
  C5_export_gating annotationsW tasksW fsW [] (by decide)

/-- C6 (counterexample): the reported count is `len(passed_tasks)`, not
the number of records actually written.  With one pass-marked task whose
directory is missing, nothing is exported yet the result still reports
`count = 1` and the message "Exported 1 passed cases". -/
theorem C6_counterexample :
    (api_export annsC6 [] fsMissing []).count = 1 ∧
    (api_export annsC6 [] fsMissing []).all_data = [] ∧
    (api_export annsC6 [] fsMissing []).message =
      "Exported 1 passed cases" ∧
    (api_export annsC6 [] fsMissing []).count ≠
      (api_export annsC6 [] fsMissing []).all_data.length :=
  ⟨rfl, rfl, rfl, by decide⟩

/-- C6 (amended): the count returned (and embedded in the message) equals
the number of pass-marked tasks selected, which bounds the number of
records written from above; the two agree exactly when no selected task is
skipped for missing task data or a missing video file. -/
theorem C6_count_amended (annotations : List (String × AnnRecord))
    (tasks : List (String × TaskInfo)) (fs : String → TaskFS)
    (adjs : List (String × AdjRecord)) :
    (api_export annotations tasks fs adjs).count =
        (api_export annotations tasks fs adjs).selected.length ∧
    (api_export annotations tasks fs adjs).message =
      "Exported " ++ toString (api_export annotations tasks fs adjs).count ++
        " passed cases" ∧
    (api_export annotations tasks fs adjs).all_data.length ≤
      (api_export annotations tasks fs adjs).count ∧
    ((∀ tid ∈ (api_export annotations tasks fs adjs).selected,
        load_task_data tid (fs tid) ≠ none ∧ (fs tid).video_file ≠ none) →
      (api_export annotations tasks fs adjs).all_data.length =
        (api_export annotations tasks fs adjs).count) := by
  refine ⟨rfl, rfl, List.length_filterMap_le _ _, fun h => ?_⟩
  refine length_filterMap_all_some fun tid htid hnone => ?_
  obtain ⟨hload, hv⟩ := h tid htid
  cases hl : load_task_data tid (fs tid) with
  | none => exact hload hl
  | some td =>
    cases hvf : (fs tid).video_file with
    | none => exact hv hvf
    | some v => simp [export_try, hl, hvf] at hnone

theorem C6_witness :
    (api_export annotationsW tasksW fsW []).count =
        (api_export annotationsW tasksW fsW []).selected.length ∧
    (api_export annotationsW tasksW fsW []).all_data.length =
      (api_export annotationsW tasksW fsW []).count :=
  ⟨(C6_count_amended annotationsW tasksW fsW []).1,
   (C6_count_amended annotationsW tasksW fsW []).2.2.2 (by decide)⟩

/-- C7: the coordinate substitution chain preserves the variant already
encoded in the code string and substitutes only the numeric coordinate:
a code containing `doubleClick` / `rightClick` / `clicks=3` re-synthesizes
to the same variant at the new coordinate; a `moveTo`/`dragTo` pair keeps
the `dragTo` target and moves only the `moveTo` half; the concrete
`doubleClick(100,200)` example adjusted to `(150,250)` yields
`doubleClick(150, 250)` and never plain `click(150, 250)`; and the same
holds through `api_task` serving an adjusted task.  (`adjust_code` takes
no description: the description is never re-consulted.) -/
theorem C7_variant_preserved (code : String) (x y : ℤ) :
    (containsSub code.data "doubleClick".data = true →
      adjust_code code x y = s!"pyautogui.doubleClick({x}, {y})") ∧
    (containsSub code.data "doubleClick".data = false →
      containsSub code.data "rightClick".data = true →
      adjust_code code x y = s!"pyautogui.rightClick({x}, {y})") ∧
    (containsSub code.data "doubleClick".data = false →
      containsSub code.data "rightClick".data = false →
      containsSub code.data "clicks=3".data = true →
      adjust_code code x y = s!"pyautogui.click({x}, {y}, clicks=3)") ∧
    (∀ d1 d2, containsSub code.data "doubleClick".data = false →
      containsSub code.data "rightClick".data = false →
      containsSub code.data "clicks=3".data = false →
      (containsSub (code.data.map Char.toLower) "click".data &&
        containsSub code.data "pyautogui.click".data) = false →
      containsSub code.data "moveTo".data = true →
      containsSub code.data "dragTo".data = true →
      reDragTo code.data = some (d1, d2) →
      adjust_code code x y =
        "pyautogui.moveTo(" ++ toString x ++ ", " ++ toString y ++
          "); pyautogui.dragTo(" ++ String.mk d1 ++ ", " ++ String.mk d2 ++
          ")") ∧
    (adjust_code "pyautogui.doubleClick(100, 200)" 150 250 =
        "pyautogui.doubleClick(150, 250)" ∧
      adjust_code "pyautogui.doubleClick(100, 200)" 150 250 ≠
        "pyautogui.click(150, 250)") ∧
    ((api_task "9" fsDouble adjsDouble).map fun td =>
        td.steps.map Step.code) = some ["pyautogui.doubleClick(150, 250)"] := by
  refine ⟨fun h => ?_, fun h1 h2 => ?_, fun h1 h2 h3 => ?_,
    fun d1 d2 h1 h2 h3 h4 h5 h6 h7 => ?_, ⟨by decide, by decide⟩, rfl⟩
  · simp [adjust_code, h]
  · simp [adjust_code, h1, h2]
  · simp [adjust_code, h1, h2, h3]
  · simp [adjust_code, h1, h2, h3, h4, h5, h6, h7]

theorem C7_witness :
    adjust_code "pyautogui.moveTo(1, 2); pyautogui.dragTo(30, 40)" 150 250 =
      "pyautogui.moveTo(" ++ toString (150 : ℤ) ++ ", " ++
        toString (250 : ℤ) ++ "); pyautogui.dragTo(" ++
        String.mk "30".data ++ ", " ++ String.mk "40".data ++ ")" :=
  (C7_variant_preserved "pyautogui.moveTo(1, 2); pyautogui.dragTo(30, 40)"
      150 250).2.2.2.1 "30".data "40".data (by decide) (by decide)
    (by decide) (by decide) (by decide) (by decide) (by decide)

/-- C8: `api_annotate` replaces the task's stored annotation record
wholesale with exactly the supplied mark (any of the three states),
reason, and scores, and leaves every other task's record unchanged. -/
theorem C8_annotate_full_replace (store : List (String × AnnRecord))
    (tid : String) (mark : Option String) (reason : String)
    (scores : List (String × ℤ)) :
    dictGet (api_annotate store tid mark reason scores) tid =
        some { mark := mark, pass_reason := reason, scores := scores } ∧
    ∀ tid', tid' ≠ tid →
      dictGet (api_annotate store tid mark reason scores) tid' =
        dictGet store tid' :=
  ⟨dictGet_dictSet_self _ _ _, fun _ h => dictGet_dictSet_ne _ _ _ _ h⟩

theorem C8_witness :
    dictGet (api_annotate annotationsW "2" none "undecided" []) "2" =
        some { mark := none, pass_reason := "undecided", scores := [] } ∧
    dictGet (api_annotate annotationsW "2" none "undecided" []) "1" =
      dictGet annotationsW "1" :=
  ⟨(C8_annotate_full_replace annotationsW "2" none "undecided" []).1,
   (C8_annotate_full_replace annotationsW "2" none "undecided" []).2 "1"
     (by decide)⟩

/-- C9: `load_task_data` returns `none` (surfaced as the 404 "Task not
found" by `api_task`) whenever the task directory or the mandatory
complete event log is absent; otherwise it returns one step per complete
event, never a partial sequence. -/
theorem C9_not_found (tid : String) (fs : TaskFS)
    (adjs : List (String × AdjRecord)) :
    ((fs.dir_exists = false ∨ fs.complete_events = none) →
      load_task_data tid fs = none) ∧
    (∀ ces, fs.dir_exists = true → fs.complete_events = some ces →
      ∃ td, load_task_data tid fs = some td ∧
        td.steps.length = ces.length) ∧
    (api_task tid fs adjs = none ↔ load_task_data tid fs = none) := by
  refine ⟨?_, ?_, ?_⟩
  · rintro (h | h)
    · simp [load_task_data, h]
    · simp only [load_task_data, h]
      split <;> rfl
  · intro ces h1 h2
    simp only [load_task_data, h1, h2, Bool.not_true, Bool.false_eq_true,
      if_false]
    exact ⟨_, rfl, by simp [List.enum_length]⟩
  · simp [api_task, Option.map_eq_none']

theorem C9_witness :
    load_task_data "9" (fsMissing "9") = none ∧
    ∃ td, load_task_data "9" fsDouble = some td ∧
      td.steps.length = [ceDouble].length :=
  ⟨(C9_not_found "9" (fsMissing "9") []).1 (Or.inl rfl),
   (C9_not_found "9" fsDouble []).2.1 [ceDouble] rfl rfl⟩

/-- C10: a drag step synthesized through the fallback
`pyautogui.drag(x, y)` form matches none of the substitution branches, so
a coordinate adjustment leaves the code string completely unchanged, even
though such a step can have `has_coordinate = true`. -/
theorem C10_drag_fallback_unchanged :
    (∀ sx sy : List Char, (∀ c ∈ sx, c.isDigit = true) →
      (∀ c ∈ sy, c.isDigit = true) → ∀ ax ay : ℤ,
      adjust_code (String.mk ("pyautogui.drag(".data ++ sx ++ (", ").data ++
          sy ++ ")".data)) ax ay =
        String.mk ("pyautogui.drag(".data ++ sx ++ (", ").data ++ sy ++
          ")".data)) ∧
    build_pyautogui_code "drag" 100 200 "move the file icon" =
      "pyautogui.drag(100, 200)" ∧
    (build_step 0 dragEvent none 0).code = "pyautogui.drag(100, 200)" ∧
    (build_step 0 dragEvent none 0).has_coordinate = true ∧
    adjust_code "pyautogui.drag(100, 200)" 150 250 =
      "pyautogui.drag(100, 200)" := by
  refine ⟨?_, rfl, rfl, rfl, by decide⟩
  intro sx sy hsx hsy ax ay
  set L : List Char := "pyautogui.drag(".data ++ sx ++ (", ").data ++ sy ++
    ")".data with hL
  have hmem : ∀ c : Char, c ∈ L → c.isDigit = true ∨
      c ∈ "pyautogui.drag(".data ∨ c ∈ (", ").data ∨ c ∈ ")".data := by
    intro c hc
    simp only [hL, List.append_assoc, List.mem_append] at hc
    rcases hc with h | h | h | h | h
    · exact Or.inr (Or.inl h)
    · exact Or.inl (hsx c h)
    · exact Or.inr (Or.inr (Or.inl h))
    · exact Or.inl (hsy c h)
    · exact Or.inr (Or.inr (Or.inr h))
  have habs : ∀ c : Char, c.isDigit = false →
      c ∉ "pyautogui.drag(".data → c ∉ (", ").data → c ∉ ")".data →
      c ∉ L := by
    intro c hd h1 h2 h3 hc
    rcases hmem c hc with h | h | h | h
    · simp [hd] at h
    · exact h1 h
    · exact h2 h
    · exact h3 h
  have hlow : L.map Char.toLower = L := by
    refine map_toLower_id fun c hc => ?_
    have hfix1 : ∀ x ∈ "pyautogui.drag(".data, Char.toLower x = x := by decide
    have hfix2 : ∀ x ∈ (", ").data, Char.toLower x = x := by decide
    have hfix3 : ∀ x ∈ ")".data, Char.toLower x = x := by decide
    rcases hmem c hc with h | h | h | h
    · exact toLower_digit h
    · exact hfix1 c h
    · exact hfix2 c h
    · exact hfix3 c h
  have hnb : containsSub L "doubleClick".data = false :=
    containsSub_false 'b' (by decide)
      (habs 'b' (by decide) (by decide) (by decide) (by decide))
  have hnr : containsSub L "rightClick".data = false :=
    containsSub_false 'C' (by decide)
      (habs 'C' (by decide) (by decide) (by decide) (by decide))
  have hn3 : containsSub L "clicks=3".data = false :=
    containsSub_false '=' (by decide)
      (habs '=' (by decide) (by decide) (by decide) (by decide))
  have hnc : containsSub L "click".data = false :=
    containsSub_false 'k' (by decide)
      (habs 'k' (by decide) (by decide) (by decide) (by decide))
  have hnm : containsSub L "moveTo".data = false :=
    containsSub_false 'T' (by decide)
      (habs 'T' (by decide) (by decide) (by decide) (by decide))
  have hdata : (String.mk L).data = L := rfl
  simp [adjust_code, hdata, hnb, hnr, hn3, hlow, hnc, hnm]

theorem C10_witness :
    adjust_code (String.mk ("pyautogui.drag(".data ++ "100".data ++
        (", ").data ++ "200".data ++ ")".data)) 150 250 =
      String.mk ("pyautogui.drag(".data ++ "100".data ++ (", ").data ++
        "200".data ++ ")".data) :=
  C10_drag_fallback_unchanged.1 "100".data "200".data (by decide)
    (by decide) 150 250
